import Mathlib

/-!
Verification of the parametric query execution engine of `data-swiss-knife`
(`query_runner/parameters.py` and `query_runner/executor.py`), shallowly
embedded in Lean.  Python dicts are modelled as insertion-ordered association
lists, exceptions as `Except`/`Option`, the database connector and the
streaming COPY sink as abstract function records, and machine integers as
`Int`/`Nat` (Python integers are unbounded).  Wall-clock fields
(`execution_time`, `elapsed_time`, ETA) are real-time quantities and are not
modelled.
-/

namespace DSK

/-- Calendar date, modelling Python `datetime.date` (proleptic Gregorian). -/
structure Date where
  year : Nat
  month : Nat
  day : Nat
deriving DecidableEq, Repr

/-- A typed parameter value (`Any` in the Python source: the values a
parameter's value set can hold). -/
inductive Value where
  | int (n : Int)
  | str (s : String)
  | date (d : Date)
deriving DecidableEq, Repr

/-- A combination: mapping from parameter name to one concrete value
(`dict[str, Any]`), insertion-ordered. -/
abbrev Combo := List (String × Value)

/-- `Parameter` dataclass from `parameters.py`. -/
structure Parameter where
  name : String
  param_type : String := "text"
  date_format : String := "%Y-%m-%d"
  values : List Value := []
  source_type : String := "manual"
  source_query : String := ""
deriving DecidableEq, Repr

/-- `itertools.product` over a list of value lists: the last list varies
fastest (standard nested product order). -/
def cartProd : List (List Value) → List (List Value)
  | [] => [[]]
  | l :: ls => l.flatMap (fun v => (cartProd ls).map (fun rest => v :: rest))

/-- `ParameterManager.generate_combinations`: cartesian product of the value
sets of the parameters that have values, in insertion order; `[{}]` when there
are no parameters or no parameter has values.  The manager's `dict` is
modelled as the insertion-ordered list `pm`. -/
def generate_combinations (pm : List Parameter) : List Combo :=
  if pm = [] then [[]]
  else
    let params_with_values := pm.filter (fun p => p.values ≠ [])
    if params_with_values = [] then [[]]
    else
      let names := params_with_values.map (fun p => p.name)
      let value_lists := params_with_values.map (fun p => p.values)
      (cartProd value_lists).map (fun combo => names.zip combo)

/-- `ParameterManager.get_combination_count`: product of the sizes of the
non-empty value sets, starting from 1; `0` when no parameters are declared. -/
def get_combination_count (pm : List Parameter) : Nat :=
  let count := pm.foldl (fun acc p => if p.values ≠ [] then acc * p.values.length else acc) 1
  if pm = [] then 0 else count

/-- Specification-side nested cartesian product: the earliest parameter
varies slowest, the latest fastest, and each combination binds every listed
parameter's name to one of its values.  Written from the spec's description
of the ordering, to be compared with `generate_combinations`. -/
def specCombos : List Parameter → List Combo
  | [] => [[]]
  | p :: ps => p.values.flatMap (fun v => (specCombos ps).map (fun c => (p.name, v) :: c))

/-! ### Template placeholder substitution (`executor.py`) -/

/-- `[a-zA-Z_]`: first character of a placeholder name. -/
def isIdentStart (c : Char) : Bool := c.isAlpha || c == '_'

/-- `[a-zA-Z0-9_]`: continuation character of a placeholder name. -/
def isIdentCont (c : Char) : Bool := c.isAlphanum || c == '_'

/-- The scan performed by `re.sub(r':([a-zA-Z_][a-zA-Z0-9_]*)', replacer, query)`
in `substitute_params`: left-to-right, each placeholder occurrence replaced by
`%s` and its name appended (in occurrence order) to the collected list. -/
def scanSub : List Char → List Char × List String
  | [] => ([], [])
  | ':' :: c :: rest =>
    if isIdentStart c then
      let ident := rest.takeWhile isIdentCont
      let res := scanSub (rest.dropWhile isIdentCont)
      ('%' :: 's' :: res.1, String.mk (c :: ident) :: res.2)
    else
      let res := scanSub (c :: rest)
      (':' :: res.1, res.2)
  | c :: rest =>
    let res := scanSub rest
    (c :: res.1, res.2)
termination_by l => l.length
decreasing_by
  · have hdw : ∀ l : List Char, (l.dropWhile isIdentCont).length ≤ l.length := by
      intro l
      induction l with
      | nil => simp
      | cons c2 rest2 ih =>
        rw [List.dropWhile_cons]
        split
        · exact Nat.le_succ_of_le ih
        · simp
    have := hdw rest
    simp only [List.length_cons]
    omega
  · simp
  · simp

/-- Python `dict.get(name)`: the bound value, or `None` when absent. -/
def dictGet (params : Combo) (name : String) : Option Value :=
  (params.find? (fun kv => kv.1 == name)).map (fun kv => kv.2)

/-- `substitute_params`: convert `:name` to `%s` and return the values in
occurrence order (`params.get(name)` per occurrence, `None` when unbound). -/
def substitute_params (query : String) (params : Combo) : String × List (Option Value) :=
  let res := scanSub query.data
  (String.mk res.1, res.2.map (fun n => dictGet params n))

/-- A template token: a literal character or a placeholder reference. -/
inductive Tok where
  | lit (c : Char)
  | ph (name : String)
deriving DecidableEq, Repr

/-- Specification-side tokenization of a template, from the spec's grammar:
a placeholder is a colon followed by a letter or underscore and then the
maximal run of letters/digits/underscores; scanning is left to right. -/
def tokenize : List Char → List Tok
  | [] => []
  | ':' :: c :: rest =>
    if isIdentStart c then
      Tok.ph (String.mk (c :: rest.takeWhile isIdentCont)) :: tokenize (rest.dropWhile isIdentCont)
    else
      Tok.lit ':' :: tokenize (c :: rest)
  | c :: rest => Tok.lit c :: tokenize rest
termination_by l => l.length
decreasing_by
  · have hdw : ∀ l : List Char, (l.dropWhile isIdentCont).length ≤ l.length := by
      intro l
      induction l with
      | nil => simp
      | cons c2 rest2 ih =>
        rw [List.dropWhile_cons]
        split
        · exact Nat.le_succ_of_le ih
        · simp
    have := hdw rest
    simp only [List.length_cons]
    omega
  · simp
  · simp

/-- Rendering of one token in the substituted statement: a placeholder
becomes the positional marker `%s`. -/
def renderTok : Tok → List Char
  | .lit c => [c]
  | .ph _ => ['%', 's']

/-- The name of a placeholder token, if any. -/
def phName : Tok → Option String
  | .lit _ => none
  | .ph n => some n

/-! ### Query execution and statistics (`executor.py`)

The database connector (psycopg statement execution) and the streaming COPY
sink are abstracted as function records returning `Except String` — an
`Except.error` is a raised exception with its message.  `execution_time` and
the elapsed/ETA statistics are wall-clock quantities and are not modelled.
-/

/-- Tabular result (pandas `DataFrame`): column names plus rows of cells. -/
structure DataFrame where
  cols : List String
  rows : List (List (Option Value))
deriving DecidableEq, Repr

/-- Outcome of one statement: a rowset (`cur.description` non-null) or a DML
affected-row count (`cur.rowcount`, which may be `-1`). -/
inductive StmtResult where
  | rows (df : DataFrame)
  | affected (n : Int)
deriving DecidableEq, Repr

/-- The backend connector: executing a statement with positional arguments
yields a `StmtResult` or raises (connection and statement failures alike). -/
structure Connector where
  exec : String → List (Option Value) → Except String StmtResult

/-- The streaming COPY sink: bulk-loading a frame succeeds or raises. -/
structure Sink where
  copy : DataFrame → Except String Unit

/-- `QueryResult` dataclass (without the wall-clock `execution_time`). -/
structure QueryResult where
  params : Combo
  data : Option DataFrame
  error : Option String
  row_count : Int
  rows_inserted : Nat := 0
deriving DecidableEq, Repr

/-- `ExecutionStats` counters (without the wall-clock timing fields). -/
structure ExecutionStats where
  total : Nat := 0
  completed : Nat := 0
  success : Nat := 0
  errors : Nat := 0
  rows_fetched : Int := 0
  rows_inserted : Nat := 0
deriving DecidableEq, Repr

/-- `stream_insert_df`: COPY the frame into the target table; `0` for an
empty frame, and `0` — the exception is swallowed — when the COPY raises. -/
def stream_insert_df (sink : Sink) (df : DataFrame) : Nat :=
  if df.rows = [] then 0
  else
    match sink.copy df with
    | .ok _ => df.rows.length
    | .error _ => 0

/-- Pandas `df[name] = v` with a constant value: overwrite the column in
place when the frame already has it, otherwise append it as a new column. -/
def setColumn (df : DataFrame) (name : String) (v : Option Value) : DataFrame :=
  match df.cols.findIdx? (fun c => c = name) with
  | some i => { cols := df.cols, rows := df.rows.map (fun r => r.set i v) }
  | none => { cols := df.cols ++ [name], rows := df.rows.map (fun r => r ++ [v]) }

/-- `df[f'_param_{key}'] = value` for each combination entry, in insertion
order: one constant column per parameter. -/
def addParamColumns (df : DataFrame) (params : Combo) : DataFrame :=
  params.foldl (fun acc kv => setColumn acc ("_param_" ++ kv.1) (some kv.2)) df

/-- `execute_single_query`: substitute, execute, classify; any raised
failure is caught and becomes the `error` field with `row_count = 0`. -/
def execute_single_query (conn : Connector) (query : String) (params : Combo) :
    QueryResult :=
  match conn.exec (substitute_params query params).1 (substitute_params query params).2 with
  | .error e =>
    { params := params, data := none, error := some e, row_count := 0 }
  | .ok (.rows df) =>
    { params := params, data := some df, error := none, row_count := df.rows.length }
  | .ok (.affected n) =>
    { params := params, data := none, error := none, row_count := n }

/-- `execute_and_stream`: like `execute_single_query`, but a rowset is tagged
(when `add_param_columns`) and forwarded to the COPY sink instead of being
kept; `rows_inserted` is the count `stream_insert_df` reports. -/
def execute_and_stream (conn : Connector) (query : String) (params : Combo)
    (sink : Sink) (add_param_columns : Bool) : QueryResult :=
  match conn.exec (substitute_params query params).1 (substitute_params query params).2 with
  | .error e =>
    { params := params, data := none, error := some e, row_count := 0 }
  | .ok (.rows df) =>
    let df := if add_param_columns then addParamColumns df params else df
    let rows_inserted := stream_insert_df sink df
    { params := params, data := none, error := none,
      row_count := df.rows.length, rows_inserted := rows_inserted }
  | .ok (.affected n) =>
    { params := params, data := none, error := none, row_count := n }

/-- Python truthiness of `result.error` in `if result.error:` — `None` and
the empty string are both falsy. -/
def errTruthy : Option String → Bool
  | none => false
  | some e => e != ""

/-- The stats update performed per completed task in `execute`. -/
def updateStats (s : ExecutionStats) (r : QueryResult) : ExecutionStats :=
  let s1 := { s with completed := s.completed + 1 }
  if errTruthy r.error then { s1 with errors := s1.errors + 1 }
  else { s1 with success := s1.success + 1, rows_fetched := s1.rows_fetched + r.row_count }

/-- The stats update performed per completed task in `execute_with_streaming`
(also accumulates `rows_inserted`). -/
def updateStatsStreaming (s : ExecutionStats) (r : QueryResult) : ExecutionStats :=
  let s1 := { s with completed := s.completed + 1 }
  if errTruthy r.error then { s1 with errors := s1.errors + 1 }
  else { s1 with success := s1.success + 1, rows_fetched := s1.rows_fetched + r.row_count,
                 rows_inserted := s1.rows_inserted + r.rows_inserted }

/-- The sequence of stats snapshots handed to the progress callback: one
after every completed task. -/
def statsTrace (upd : ExecutionStats → QueryResult → ExecutionStats) :
    ExecutionStats → List QueryResult → List ExecutionStats
  | _, [] => []
  | s, r :: rs => (upd s r) :: statsTrace upd (upd s r) rs

/-- Stats at run start: `total` fixed, all counters zero. -/
def initStats (total : Nat) : ExecutionStats := { total := total }

/-- `ThreadedQueryExecutor.execute`.  `completion` is the order in which
`as_completed` yields the finished futures — an arbitrary permutation of
`param_combinations`; each task computes its result from its own combination
only.  `ThreadPoolExecutor.__init__` raises
`ValueError("max_workers must be greater than 0")` when `max_workers ≤ 0`,
before any future is submitted; that exception is the `Except.error` branch. -/
def ThreadedQueryExecutor.execute (max_workers : Int) (conn : Connector)
    (query : String) (param_combinations : List Combo) (completion : List Combo) :
    Except String (List QueryResult × List ExecutionStats) :=
  if max_workers ≤ 0 then .error "max_workers must be greater than 0"
  else
    let results := completion.map (fun params => execute_single_query conn query params)
    .ok (results, statsTrace updateStats (initStats param_combinations.length) results)

/-- `ThreadedQueryExecutor.execute_with_streaming`, same scheduling model. -/
def ThreadedQueryExecutor.execute_with_streaming (max_workers : Int) (conn : Connector)
    (query : String) (param_combinations : List Combo) (completion : List Combo)
    (sink : Sink) (add_param_columns : Bool) :
    Except String (List QueryResult × List ExecutionStats) :=
  if max_workers ≤ 0 then .error "max_workers must be greater than 0"
  else
    let results := completion.map
      (fun params => execute_and_stream conn query params sink add_param_columns)
    .ok (results, statsTrace updateStatsStreaming (initStats param_combinations.length) results)

/-- Concrete connector whose statements always succeed as DML touching no
rows. -/
def connAffectedOk : Connector := ⟨fun _ _ => .ok (.affected 0)⟩

/-- Concrete one-row, one-column frame. -/
def df1 : DataFrame := { cols := ["v"], rows := [[some (Value.int 7)]] }

/-- Concrete connector whose statements always return the rowset `df1`. -/
def connRows1 : Connector := ⟨fun _ _ => .ok (.rows df1)⟩

/-- Concrete one-row frame that already contains a tag column `_param_a`. -/
def dfCollide : DataFrame := { cols := ["_param_a"], rows := [[some (Value.int 7)]] }

/-- Concrete connector whose statements always return `dfCollide`. -/
def connCollide : Connector := ⟨fun _ _ => .ok (.rows dfCollide)⟩

/-- Concrete connector that always raises. -/
def connFailAll : Connector := ⟨fun _ _ => .error "boom"⟩

/-- Concrete connector that raises exactly when the positional arguments are
`[1]` (used to fail one combination out of several). -/
def connFailOn1 : Connector :=
  ⟨fun _ vals => if vals = [some (Value.int 1)] then .error "boom" else .ok (.affected 0)⟩

/-- Concrete sink that always accepts the COPY. -/
def sinkOk : Sink := ⟨fun _ => .ok ()⟩

/-- Concrete sink whose COPY always raises. -/
def sinkFail : Sink := ⟨fun _ => .error "copy failed"⟩

/-- Concrete one-task run used as the C5 witness. -/
def demoCombo : Combo := [("a", Value.int 1)]

/-- The results of the one-task demo run. -/
def demoResults : List QueryResult :=
  [demoCombo].map (fun p => execute_single_query connAffectedOk "q" p)

/-- The stats trace of the one-task demo run. -/
def demoTrace : List ExecutionStats :=
  statsTrace updateStats (initStats ([demoCombo] : List Combo).length) demoResults

/-- The two-combination run (one failing) used as the C4 witness. -/
def c4Combos : List Combo := [[("k", Value.int 1)], [("k", Value.int 2)]]

/-- Completion order of the C4 demo run (reverse of submission). -/
def c4Completion : List Combo := [[("k", Value.int 2)], [("k", Value.int 1)]]

/-- Results of the C4 demo run. -/
def c4Results : List QueryResult :=
  c4Completion.map (fun p => execute_single_query connFailOn1 ":k" p)

/-- Stats trace of the C4 demo run. -/
def c4Trace : List ExecutionStats :=
  statsTrace updateStats (initStats c4Combos.length) c4Results

/-! ### Value parsing and ranges (`parameters.py`)

`datetime.date` arithmetic is modelled with the proleptic Gregorian calendar
(`toOrdinal` is Python's `date.toordinal`); `datetime.strptime` is modelled
for the `%Y`/`%m`/`%d` directives and literal separators, which is all the
source's date formats use, with CPython's `_strptime` digit patterns
(`%Y` = exactly four digits, `%m`/`%d` = one or two digits in range) and the
`date()` constructor's validation.  Python's `int()` is modelled as optional
sign plus decimal digits after stripping whitespace (digit-group underscores
are not modelled). -/

/-- Gregorian leap-year rule (`calendar.isleap`). -/
def isLeap (y : Nat) : Bool := y % 4 == 0 && (y % 100 != 0 || y % 400 == 0)

/-- Days in a month of a given year. -/
def daysInMonth (y m : Nat) : Nat :=
  if m = 2 then (if isLeap y then 29 else 28)
  else if m = 4 ∨ m = 6 ∨ m = 9 ∨ m = 11 then 30
  else 31

/-- Days in year `y` before month `m`. -/
def daysBeforeMonth (y m : Nat) : Nat :=
  ((List.range (m - 1)).map (fun i => daysInMonth y (i + 1))).sum

/-- Days before January 1 of year `y` (proleptic Gregorian). -/
def daysBeforeYear (y : Nat) : Nat :=
  365 * (y - 1) + (y - 1) / 4 + (y - 1) / 400 - (y - 1) / 100

/-- Python `date.toordinal()`. -/
def Date.toOrdinal (d : Date) : Nat :=
  daysBeforeYear d.year + daysBeforeMonth d.year d.month + d.day

/-- A structurally valid calendar date (what `datetime.date` can hold,
without the year-9999 cap, which is irrelevant to ordinal arithmetic). -/
def Date.Valid (d : Date) : Prop :=
  1 ≤ d.year ∧ 1 ≤ d.month ∧ d.month ≤ 12 ∧ 1 ≤ d.day ∧ d.day ≤ daysInMonth d.year d.month

instance (d : Date) : Decidable d.Valid := by
  unfold Date.Valid
  infer_instance

/-- `current + timedelta(days=1)` on a valid date. -/
def nextDay (d : Date) : Date :=
  if d.day < daysInMonth d.year d.month then ⟨d.year, d.month, d.day + 1⟩
  else if d.month < 12 then ⟨d.year, d.month + 1, 1⟩
  else ⟨d.year + 1, 1, 1⟩

/-- The `while current <= end_date` loop of `generate_date_range`, with the
number of remaining iterations made explicit as fuel (the loop advances one
day per iteration, so `end.toOrdinal + 1 - start.toOrdinal` iterations
suffice); Python's `date` comparison coincides with ordinal comparison on
valid dates. -/
def rangeAux (e : Date) : Nat → Date → List Date
  | 0, _ => []
  | fuel + 1, cur =>
    if cur.toOrdinal ≤ e.toOrdinal then cur :: rangeAux e fuel (nextDay cur) else []

/-- Numeric value of an ASCII digit. -/
def digitVal (c : Char) : Nat := c.toNat - '0'.toNat

/-- `%Y` in `_strptime`: exactly four digits. -/
def takeYear : List Char → Option (Nat × List Char)
  | a :: b :: c :: d :: rest =>
    if a.isDigit ∧ b.isDigit ∧ c.isDigit ∧ d.isDigit then
      some (digitVal a * 1000 + digitVal b * 100 + digitVal c * 10 + digitVal d, rest)
    else none
  | _ => none

/-- `%m` in `_strptime`: `1[0-2]|0[1-9]|[1-9]`. -/
def takeMonth : List Char → Option (Nat × List Char)
  | [] => none
  | a :: rest =>
    match rest with
    | b :: rest2 =>
      if a = '1' ∧ '0' ≤ b ∧ b ≤ '2' then some (10 + digitVal b, rest2)
      else if a = '0' ∧ '1' ≤ b ∧ b ≤ '9' then some (digitVal b, rest2)
      else if '1' ≤ a ∧ a ≤ '9' then some (digitVal a, rest)
      else none
    | [] => if '1' ≤ a ∧ a ≤ '9' then some (digitVal a, []) else none

/-- `%d` in `_strptime`: `3[01]|[12]\d|0[1-9]|[1-9]`. -/
def takeDay : List Char → Option (Nat × List Char)
  | [] => none
  | a :: rest =>
    match rest with
    | b :: rest2 =>
      if a = '3' ∧ ('0' ≤ b ∧ b ≤ '1') then some (30 + digitVal b, rest2)
      else if (a = '1' ∨ a = '2') ∧ b.isDigit then some (digitVal a * 10 + digitVal b, rest2)
      else if a = '0' ∧ '1' ≤ b ∧ b ≤ '9' then some (digitVal b, rest2)
      else if '1' ≤ a ∧ a ≤ '9' then some (digitVal a, rest)
      else none
    | [] => if '1' ≤ a ∧ a ≤ '9' then some (digitVal a, []) else none

/-- Run the compiled format against the input: directives consume their
pattern, any other format character must match literally, and the whole
input must be consumed (`unconverted data remains` otherwise); missing
directives default to 1900-01-01 as in `_strptime`.  Directives other than
`%Y`/`%m`/`%d` are outside this model and fail. -/
def strpAux : List Char → List Char → Option Nat → Option Nat → Option Nat →
    Option (Nat × Nat × Nat)
  | [], s, y, m, d => if s = [] then some (y.getD 1900, m.getD 1, d.getD 1) else none
  | '%' :: dir :: fmt, s, y, m, d =>
    if dir = 'Y' then
      match takeYear s with
      | some (v, rest) => strpAux fmt rest (some v) m d
      | none => none
    else if dir = 'm' then
      match takeMonth s with
      | some (v, rest) => strpAux fmt rest y (some v) d
      | none => none
    else if dir = 'd' then
      match takeDay s with
      | some (v, rest) => strpAux fmt rest y m (some v)
      | none => none
    else none
  | c :: fmt, s, y, m, d =>
    match s with
    | c2 :: s2 => if c2 = c then strpAux fmt s2 y m d else none
    | [] => none

/-- `datetime.strptime(s, fmt).date()`: pattern match plus the `date()`
constructor's range validation (`MINYEAR = 1`, `MAXYEAR = 9999`). -/
def strptimeDate (date_format : String) (s : String) : Option Date :=
  match strpAux date_format.data s.data none none none with
  | none => none
  | some (y, m, d) =>
    if 1 ≤ y ∧ y ≤ 9999 ∧ 1 ≤ m ∧ m ≤ 12 ∧ 1 ≤ d ∧ d ≤ daysInMonth y m then
      some ⟨y, m, d⟩
    else none

/-- `generate_date_range`: every day from `start` to `end` inclusive, or `[]`
when either bound fails to parse with the given format. -/
def generate_date_range (startStr endStr : String)
    (date_format : String := "%Y-%m-%d") : List Date :=
  match strptimeDate date_format startStr, strptimeDate date_format endStr with
  | some s, some e => rangeAux e (e.toOrdinal + 1 - s.toOrdinal) s
  | _, _ => []

/-- Decimal digit run (the digits of Python `int()` after sign stripping). -/
def natDigits : List Char → Option Nat
  | [] => none
  | cs =>
    if cs.all Char.isDigit then
      some (cs.foldl (fun acc c => acc * 10 + digitVal c) 0)
    else none

/-- `str.strip()`: drop leading and trailing whitespace. -/
def pyStrip (s : List Char) : List Char :=
  ((s.dropWhile Char.isWhitespace).reverse.dropWhile Char.isWhitespace).reverse

/-- Python `int(str)`: strip whitespace, optional sign, decimal digits;
`None` models the raised `ValueError`. -/
def pyInt (s : String) : Option Int :=
  match pyStrip s.data with
  | '+' :: rest => (natDigits rest).map Int.ofNat
  | '-' :: rest => (natDigits rest).map (fun n => -(Int.ofNat n))
  | cs => (natDigits cs).map Int.ofNat

/-- `list(range(s, e + 1))`. -/
def intRange (s e : Int) : List Int :=
  (List.range (e + 1 - s).toNat).map (fun (i : Nat) => s + (i : Int))

/-- `Parameter.set_from_range`: date type generates the date range (empty on
parse failure) and marks the source as `range`; number type generates the
inclusive integer range when both bounds parse as `int` and otherwise leaves
the parameter untouched (`except ValueError: pass`); any other type is left
untouched. -/
def set_from_range (p : Parameter) (startStr endStr : String) : Parameter :=
  if p.param_type = "date" then
    { p with values := (generate_date_range startStr endStr p.date_format).map Value.date,
             source_type := "range" }
  else if p.param_type = "number" then
    match pyInt startStr, pyInt endStr with
    | some s, some e =>
      { p with values := (intRange s e).map Value.int, source_type := "range" }
    | _, _ => p
  else p

/-- A date-typed parameter with the default format, for the C6 witness. -/
def dateParam : Parameter := { name := "d", param_type := "date" }

theorem cartProd_ne_nil (ls : List (List Value)) (h : ∀ l ∈ ls, l ≠ []) :
    cartProd ls ≠ [] := by
  induction ls with
  | nil => simp [cartProd]
  | cons l ls ih =>
    simp only [cartProd, ne_eq, List.flatMap_eq_nil_iff]
    intro hall
    have hl : l ≠ [] := h l (by simp)
    obtain ⟨v, hv⟩ := List.exists_mem_of_ne_nil l hl
    have := hall v hv
    rw [List.map_eq_nil_iff] at this
    exact ih (fun x hx => h x (by simp [hx])) this

theorem length_cartProd (ls : List (List Value)) :
    (cartProd ls).length = (ls.map List.length).prod := by
  induction ls with
  | nil => simp [cartProd]
  | cons l ls ih =>
    simp [cartProd, List.length_flatMap, Function.comp_def, ih]

theorem length_specCombos (ps : List Parameter) :
    (specCombos ps).length = (ps.map (fun p => p.values.length)).prod := by
  induction ps with
  | nil => simp [specCombos]
  | cons p ps ih =>
    simp [specCombos, List.length_flatMap, Function.comp_def, ih]

theorem map_zip_cartProd (ps : List Parameter) :
    (cartProd (ps.map (fun p => p.values))).map
      (fun combo => (ps.map (fun p => p.name)).zip combo) = specCombos ps := by
  induction ps with
  | nil => simp [cartProd, specCombos]
  | cons p ps ih =>
    simp only [List.map_cons, cartProd, specCombos]
    rw [List.map_flatMap]
    congr 1
    funext v
    rw [List.map_map, ← ih, List.map_map]
    congr 1

/-- `generate_combinations` refines the spec's nested product over the
participating (non-empty-valued) parameters. -/
theorem generate_combinations_eq_specCombos (pm : List Parameter) :
    generate_combinations pm = specCombos (pm.filter (fun p => p.values ≠ [])) := by
  unfold generate_combinations
  by_cases hpm : pm = []
  · subst hpm; simp [specCombos]
  · simp only [hpm, if_false]
    by_cases hempty : pm.filter (fun p => p.values ≠ []) = []
    · rw [if_pos hempty, hempty]; rfl
    · rw [if_neg hempty]
      exact map_zip_cartProd _

theorem foldl_count_eq_prod (pm : List Parameter) (a : Nat) :
    pm.foldl (fun acc p => if p.values ≠ [] then acc * p.values.length else acc) a
      = a * ((pm.filter (fun p => p.values ≠ [])).map (fun p => p.values.length)).prod := by
  induction pm generalizing a with
  | nil => simp
  | cons p ps ih =>
    rw [List.foldl_cons, List.filter_cons, ih]
    by_cases hp : p.values = [] <;> simp [hp, Nat.mul_assoc]

/-- C1 (counterexample): with zero declared parameters `get_combination_count`
returns `0` while `generate_combinations` returns the single empty
combination, so the two disagree at that state. -/
theorem combination_count_zero_params_mismatch :
    get_combination_count [] ≠ (generate_combinations []).length := by decide

/-- C1 (amended): whenever at least one parameter is declared,
`get_combination_count` equals the length of `generate_combinations`;
with zero declared parameters the count is `0` but one (empty) combination
is generated. -/
theorem combination_count_eq_length (pm : List Parameter) (h : pm ≠ []) :
    get_combination_count pm = (generate_combinations pm).length := by
  rw [generate_combinations_eq_specCombos, length_specCombos]
  unfold get_combination_count
  rw [if_neg h, foldl_count_eq_prod, Nat.one_mul]

/-- C1 witness: the amended equality evaluated on one declared parameter
with two values. -/
theorem combination_count_eq_length_witness :
    get_combination_count [{ name := "a", values := [.int 1, .int 2] }]
      = (generate_combinations [{ name := "a", values := [.int 1, .int 2] }]).length :=
  combination_count_eq_length _ (by decide)

/-- C2: `generate_combinations` equals the spec's nested cartesian product
over the parameters with non-empty value sets taken in insertion order
(earliest declared varies slowest, latest fastest); in particular, with no
parameters or with every value set empty the filtered list is empty and the
result is the single empty combination `[{}]`. -/
theorem generate_combinations_correct (pm : List Parameter) :
    generate_combinations pm = specCombos (pm.filter (fun p => p.values ≠ [])) :=
  generate_combinations_eq_specCombos pm

theorem scanSub_eq_tokenize (l : List Char) :
    scanSub l = ((tokenize l).flatMap renderTok, (tokenize l).filterMap phName) := by
  induction l using scanSub.induct with
  | case1 => rw [scanSub.eq_1, tokenize.eq_1]; rfl
  | case2 c rest h ih => rw [scanSub.eq_2, tokenize.eq_2]; simp [h, renderTok, phName, ih]
  | case3 c rest h ih => rw [scanSub.eq_2, tokenize.eq_2]; simp [h, renderTok, phName, ih]
  | case4 c rest h1 ih =>
    rw [scanSub.eq_3 c rest h1, tokenize.eq_3 c rest h1]
    simp [renderTok, phName, ih]

/-- C8: for every template and every combination, `substitute_params`
replaces each placeholder occurrence (a colon, then a letter or underscore,
then the maximal run of letters/digits/underscores) with the positional
marker `%s`, and the positional-argument list is the occurrence-order list of
placeholder names, each occurrence looked up independently in the combination
— so a name appearing k times contributes k arguments, all equal to its
single bound value. -/
theorem substitute_params_correct (query : String) (params : Combo) :
    substitute_params query params
      = (String.mk ((tokenize query.data).flatMap renderTok),
         ((tokenize query.data).filterMap phName).map (fun n => dictGet params n)) := by
  unfold substitute_params
  rw [scanSub_eq_tokenize]

/-- C10: a placeholder name missing from the combination does not make
substitution fail: the substituted statement text is the same as under any
other binding (the occurrence is still replaced by `%s`), and the positional
argument for that occurrence is the null value `none`. -/
theorem substitute_missing_param_is_null (query : String) (params : Combo)
    (name : String) (i : Nat)
    (hname : (scanSub query.data).2[i]? = some name)
    (hmiss : dictGet params name = none) :
    (substitute_params query params).2[i]? = some none ∧
    ∀ other : Combo, (substitute_params query params).1 = (substitute_params query other).1 := by
  constructor
  · unfold substitute_params
    simp only [List.getElem?_map, hname, Option.map_some', hmiss]
  · intro other
    rfl

/-- C10 witness: template `":a :b"` with only `a` bound; the occurrence of
`:b` (index 1) receives `none` and the statement text is unaffected. -/
theorem substitute_missing_param_is_null_witness :
    ((substitute_params ":a :b" [("a", .int 1)]).2[1]? = some none ∧
      ∀ other : Combo,
        (substitute_params ":a :b" [("a", .int 1)]).1 = (substitute_params ":a :b" other).1) :=
  substitute_missing_param_is_null ":a :b" [("a", .int 1)] "b" 1
    (by simp [scanSub, String.data, isIdentStart, isIdentCont])
    (by simp [dictGet])

theorem statsTrace_length (upd : ExecutionStats → QueryResult → ExecutionStats)
    (s0 : ExecutionStats) (rs : List QueryResult) :
    (statsTrace upd s0 rs).length = rs.length := by
  induction rs generalizing s0 with
  | nil => rfl
  | cons r rs ih => simp [statsTrace, ih]

theorem updateStats_step (s : ExecutionStats) (r : QueryResult) :
    (updateStats s r).completed = s.completed + 1 ∧
    (updateStats s r).total = s.total ∧
    (updateStats s r).success + (updateStats s r).errors = s.success + s.errors + 1 := by
  unfold updateStats
  split <;> simp <;> omega

theorem updateStatsStreaming_step (s : ExecutionStats) (r : QueryResult) :
    (updateStatsStreaming s r).completed = s.completed + 1 ∧
    (updateStatsStreaming s r).total = s.total ∧
    (updateStatsStreaming s r).success + (updateStatsStreaming s r).errors
      = s.success + s.errors + 1 := by
  unfold updateStatsStreaming
  split <;> simp <;> omega

theorem statsTrace_getElem (upd : ExecutionStats → QueryResult → ExecutionStats)
    (hupd : ∀ s r, (upd s r).completed = s.completed + 1 ∧ (upd s r).total = s.total ∧
        (upd s r).success + (upd s r).errors = s.success + s.errors + 1)
    (s0 : ExecutionStats) (rs : List QueryResult) (i : Nat)
    (h : i < (statsTrace upd s0 rs).length) :
    ((statsTrace upd s0 rs)[i]).completed = s0.completed + i + 1 ∧
    ((statsTrace upd s0 rs)[i]).total = s0.total ∧
    ((statsTrace upd s0 rs)[i]).success + ((statsTrace upd s0 rs)[i]).errors
      = s0.success + s0.errors + i + 1 := by
  induction rs generalizing s0 i with
  | nil => simp [statsTrace] at h
  | cons r rs ih =>
    match i with
    | 0 =>
      simpa [statsTrace] using hupd s0 r
    | Nat.succ j =>
      have hj : j < (statsTrace upd (upd s0 r) rs).length := by
        simpa [statsTrace] using h
      have := ih (upd s0 r) j hj
      obtain ⟨h1, h2, h3⟩ := hupd s0 r
      simpa [statsTrace, h1, h2, h3, Nat.add_assoc, Nat.add_comm, Nat.add_left_comm]
        using this

theorem statsTrace_streaming_rowsInserted (s0 : ExecutionStats) (rs : List QueryResult) :
    ((statsTrace updateStatsStreaming s0 rs).getLastD s0).rows_inserted
      = s0.rows_inserted
        + ((rs.filter (fun r => !errTruthy r.error)).map (fun r => r.rows_inserted)).sum := by
  induction rs generalizing s0 with
  | nil => simp [statsTrace]
  | cons r rs ih =>
    rw [statsTrace, List.getLastD_cons, ih]
    by_cases he : errTruthy r.error
    · simp [updateStatsStreaming, he]
    · simp [updateStatsStreaming, he, Nat.add_assoc]

theorem findIdx_none_of_not_mem (l : List String) (name : String) (h : name ∉ l) :
    ∀ i, l.findIdx? (fun c => c = name) i = none := by
  induction l with
  | nil => intro i; rfl
  | cons c cs ih =>
    intro i
    have hne : ¬ c = name := fun he => h (by rw [he]; exact List.mem_cons_self _ _)
    simp only [List.findIdx?, hne, decide_False, Bool.false_eq_true, if_false]
    exact ih (fun hm => h (List.mem_cons_of_mem _ hm)) (i + 1)

theorem setColumn_fresh (df : DataFrame) (name : String) (v : Option Value)
    (h : name ∉ df.cols) :
    setColumn df name v
      = { cols := df.cols ++ [name], rows := df.rows.map (fun r => r ++ [v]) } := by
  unfold setColumn
  rw [findIdx_none_of_not_mem df.cols name h 0]

/-- When no tag column collides with an existing column (the case for every
frame the source query produces without `_param_`-named columns),
`addParamColumns` appends one extra column per parameter. -/
theorem addParamColumns_append : ∀ (params : Combo) (df : DataFrame),
    (params.map (fun kv => "_param_" ++ kv.1)).Nodup →
    (∀ kv ∈ params, ("_param_" ++ kv.1) ∉ df.cols) →
    addParamColumns df params
      = { cols := df.cols ++ params.map (fun kv => "_param_" ++ kv.1),
          rows := df.rows.map (fun r => r ++ params.map (fun kv => some kv.2)) }
  | [], df, _, _ => by simp [addParamColumns]
  | kv :: ps, df, hnodup, hfresh => by
    simp only [addParamColumns, List.foldl_cons]
    rw [setColumn_fresh df _ _ (hfresh kv (List.mem_cons_self _ _))]
    rw [List.map_cons, List.nodup_cons] at hnodup
    obtain ⟨hhead, htail⟩ := hnodup
    have hfresh2 : ∀ kv2 ∈ ps,
        ("_param_" ++ kv2.1) ∉ df.cols ++ ["_param_" ++ kv.1] := by
      intro kv2 hkv2 hmem
      rcases List.mem_append.mp hmem with hm | hm
      · exact hfresh kv2 (List.mem_cons_of_mem _ hkv2) hm
      · have heq : "_param_" ++ kv2.1 = "_param_" ++ kv.1 := by simpa using hm
        exact hhead (heq ▸ List.mem_map_of_mem _ hkv2)
    have ih := addParamColumns_append ps
      { cols := df.cols ++ ["_param_" ++ kv.1], rows := df.rows.map (fun r => r ++ [some kv.2]) }
      htail hfresh2
    simp only [addParamColumns] at ih
    rw [ih]
    simp [List.map_map, Function.comp_def, List.append_assoc]

theorem filter_isNone_length (rs : List QueryResult) :
    (rs.filter (fun r => r.error.isNone)).length
      = rs.length - (rs.filter (fun r => r.error.isSome)).length := by
  induction rs with
  | nil => simp
  | cons r rs ih =>
    have hle := List.length_filter_le (fun r => r.error.isSome) rs
    rcases hr : r.error with _ | e <;> simp [List.filter_cons, hr, ih] <;> omega

/-- C3 (counterexample): a raised failure in the streaming COPY sink is
swallowed by `stream_insert_df` — the task's result has `error = none` and
`row_count = 1` (not `error` = the failure's message and `row_count = 0` as
the claim demands), `rows_inserted` is `0`, and the stats update counts the
task as a success, not among the errors. -/
theorem stream_copy_failure_swallowed :
    sinkFail.copy (addParamColumns df1 []) = .error "copy failed" ∧
    (execute_and_stream connRows1 "q" [] sinkFail true).error = none ∧
    (execute_and_stream connRows1 "q" [] sinkFail true).row_count = 1 ∧
    (execute_and_stream connRows1 "q" [] sinkFail true).rows_inserted = 0 ∧
    (updateStatsStreaming (initStats 1) (execute_and_stream connRows1 "q" [] sinkFail true)).success = 1 ∧
    (updateStatsStreaming (initStats 1) (execute_and_stream connRows1 "q" [] sinkFail true)).errors = 0 := by
  refine ⟨rfl, ?_⟩
  simp [execute_and_stream, substitute_params, scanSub, connRows1, sinkFail, df1,
    addParamColumns, stream_insert_df, updateStatsStreaming, errTruthy, initStats,
    isIdentStart, isIdentCont]

/-- C3 (amended): a failure raised by the statement execution is fully
contained in both modes — the task's `QueryResult` carries the failure's
message with `row_count = 0` and all other fields at their defaults, and the
stats update tallies it among the errors (given a non-empty message: Python's
`if result.error:` treats an empty message string as falsy).  A failure raised
inside the streaming bulk insert, by contrast, is swallowed by
`stream_insert_df`, which reports `0` inserted rows while the task completes
with `error = none` (see the counterexample).  No failure escapes as an
exception: both task runners are total functions into `QueryResult`. -/
theorem task_failure_contained (conn : Connector) (sink : Sink) (query : String)
    (params : Combo) (apc : Bool) (e : String) (hmsg : e ≠ "")
    (hfail : conn.exec (substitute_params query params).1 (substitute_params query params).2
        = .error e) :
    execute_single_query conn query params
      = { params := params, data := none, error := some e, row_count := 0 } ∧
    execute_and_stream conn query params sink apc
      = { params := params, data := none, error := some e, row_count := 0 } ∧
    (∀ s, (updateStats s (execute_single_query conn query params)).errors = s.errors + 1 ∧
        (updateStats s (execute_single_query conn query params)).success = s.success) ∧
    (∀ s, (updateStatsStreaming s (execute_and_stream conn query params sink apc)).errors
            = s.errors + 1 ∧
        (updateStatsStreaming s (execute_and_stream conn query params sink apc)).success
            = s.success) := by
  have h1 : execute_single_query conn query params
      = { params := params, data := none, error := some e, row_count := 0 } := by
    unfold execute_single_query
    rw [hfail]
  have h2 : execute_and_stream conn query params sink apc
      = { params := params, data := none, error := some e, row_count := 0 } := by
    unfold execute_and_stream
    rw [hfail]
  refine ⟨h1, h2, ?_, ?_⟩
  · intro s
    rw [h1]
    simp [updateStats, errTruthy, hmsg]
  · intro s
    rw [h2]
    simp [updateStatsStreaming, errTruthy, hmsg]

/-- C3 witness: the amended containment at a connector that always raises
`"boom"`. -/
theorem task_failure_contained_witness :
    (execute_single_query connFailAll "q" []
      = { params := [], data := none, error := some "boom", row_count := 0 } ∧
    execute_and_stream connFailAll "q" [] sinkOk true
      = { params := [], data := none, error := some "boom", row_count := 0 } ∧
    (∀ s, (updateStats s (execute_single_query connFailAll "q" [])).errors = s.errors + 1 ∧
        (updateStats s (execute_single_query connFailAll "q" [])).success = s.success) ∧
    (∀ s, (updateStatsStreaming s (execute_and_stream connFailAll "q" [] sinkOk true)).errors
            = s.errors + 1 ∧
        (updateStatsStreaming s (execute_and_stream connFailAll "q" [] sinkOk true)).success
            = s.success)) :=
  task_failure_contained connFailAll sinkOk "q" [] true "boom" (by decide) rfl

theorem statsTrace_callback_props (upd : ExecutionStats → QueryResult → ExecutionStats)
    (hupd : ∀ s r, (upd s r).completed = s.completed + 1 ∧ (upd s r).total = s.total ∧
        (upd s r).success + (upd s r).errors = s.success + s.errors + 1)
    (total : Nat) (rs : List QueryResult) (hlen : rs.length = total) :
    (statsTrace upd (initStats total) rs).length = total ∧
    (∀ s ∈ statsTrace upd (initStats total) rs, s.completed = s.success + s.errors) ∧
    (∀ i (h : i < (statsTrace upd (initStats total) rs).length),
      ((statsTrace upd (initStats total) rs)[i]).completed
        = ((statsTrace upd (initStats total) rs)[i]).total
      ↔ i + 1 = (statsTrace upd (initStats total) rs).length) := by
  have hlen' : (statsTrace upd (initStats total) rs).length = total := by
    rw [statsTrace_length]; exact hlen
  have hc0 : (initStats total).completed = 0 := rfl
  have hs0 : (initStats total).success = 0 := rfl
  have he0 : (initStats total).errors = 0 := rfl
  have ht0 : (initStats total).total = total := rfl
  refine ⟨hlen', ?_, ?_⟩
  · intro s hs
    obtain ⟨i, h, rfl⟩ := List.mem_iff_getElem.mp hs
    obtain ⟨h1, h2, h3⟩ := statsTrace_getElem upd hupd (initStats total) rs i h
    rw [hc0] at h1
    rw [hs0, he0] at h3
    omega
  · intro i h
    obtain ⟨h1, h2, h3⟩ := statsTrace_getElem upd hupd (initStats total) rs i h
    rw [hc0] at h1
    rw [ht0] at h2
    rw [hlen'] at h ⊢
    omega

/-- C5 (counterexample): a run over zero combinations is accepted and the
progress callback fires zero times (empty stats trace), so there is no final
invocation at which `completed == total` holds — "exactly once" fails for
such runs. -/
theorem stats_zero_tasks_no_callback :
    ThreadedQueryExecutor.execute 4 connAffectedOk "q" [] [] = .ok ([], []) := rfl

/-- C5 (amended): for every run with at least one task, in both modes and
under every completion order, the callback fires once per task, every stats
snapshot satisfies `completed = success + errors`, and `completed = total`
holds exactly at the final invocation; a zero-task run instead fires the
callback zero times. -/
theorem stats_callback_invariant (mw : Int) (conn : Connector) (sink : Sink)
    (apc : Bool) (query : String) (combos completion : List Combo)
    (results : List QueryResult) (tr : List ExecutionStats)
    (hperm : completion.Perm combos) (hne : combos ≠ [])
    (hrun : ThreadedQueryExecutor.execute mw conn query combos completion = .ok (results, tr)
        ∨ ThreadedQueryExecutor.execute_with_streaming mw conn query combos completion sink apc
            = .ok (results, tr)) :
    tr.length = combos.length ∧
    (∀ s ∈ tr, s.completed = s.success + s.errors) ∧
    (∀ i (h : i < tr.length),
      (tr[i]).completed = (tr[i]).total ↔ i + 1 = tr.length) := by
  rcases hrun with hrun | hrun
  · unfold ThreadedQueryExecutor.execute at hrun
    by_cases hmw : mw ≤ 0
    · rw [if_pos hmw] at hrun; exact absurd hrun (by simp)
    · rw [if_neg hmw] at hrun
      simp only [Except.ok.injEq, Prod.mk.injEq] at hrun
      obtain ⟨hres, htr⟩ := hrun
      subst htr
      exact statsTrace_callback_props updateStats updateStats_step combos.length _
        (by rw [List.length_map, hperm.length_eq])
  · unfold ThreadedQueryExecutor.execute_with_streaming at hrun
    by_cases hmw : mw ≤ 0
    · rw [if_pos hmw] at hrun; exact absurd hrun (by simp)
    · rw [if_neg hmw] at hrun
      simp only [Except.ok.injEq, Prod.mk.injEq] at hrun
      obtain ⟨hres, htr⟩ := hrun
      subst htr
      exact statsTrace_callback_props updateStatsStreaming updateStatsStreaming_step
        combos.length _ (by rw [List.length_map, hperm.length_eq])

/-- C5 witness: the amended invariant evaluated on a one-task run. -/
theorem stats_callback_invariant_witness :
    demoTrace.length = ([demoCombo] : List Combo).length ∧
    (∀ s ∈ demoTrace, s.completed = s.success + s.errors) ∧
    (∀ i (h : i < demoTrace.length),
      (demoTrace[i]).completed = (demoTrace[i]).total ↔ i + 1 = demoTrace.length) :=
  stats_callback_invariant 4 connAffectedOk sinkOk true "q" [demoCombo] [demoCombo]
    demoResults demoTrace (List.Perm.refl _) (by simp) (Or.inl rfl)

/-- C9 (counterexample): a run with zero tasks (empty combination list) is
not rejected — with a valid worker count the executor accepts it and returns
an empty result list. -/
theorem zero_tasks_not_rejected :
    ThreadedQueryExecutor.execute 4 connRows1 "q" [] [] = .ok ([], []) := rfl

/-- C9 (amended): a worker count ≤ 0 is rejected synchronously — both entry
points fail with `ValueError("max_workers must be greater than 0")` raised at
pool construction, before any task is scheduled — but a run with zero tasks
is not rejected: with a valid worker count it completes normally with zero
results. -/
theorem worker_count_validation (mw : Int) (conn : Connector) (sink : Sink)
    (apc : Bool) (query : String) (combos completion : List Combo) (hmw : mw ≤ 0) :
    ThreadedQueryExecutor.execute mw conn query combos completion
      = .error "max_workers must be greater than 0" ∧
    ThreadedQueryExecutor.execute_with_streaming mw conn query combos completion sink apc
      = .error "max_workers must be greater than 0" ∧
    (∀ mw2 : Int, 0 < mw2 →
      ThreadedQueryExecutor.execute mw2 conn query [] [] = .ok ([], []) ∧
      ThreadedQueryExecutor.execute_with_streaming mw2 conn query [] [] sink apc
        = .ok ([], [])) := by
  refine ⟨?_, ?_, ?_⟩
  · unfold ThreadedQueryExecutor.execute
    rw [if_pos hmw]
  · unfold ThreadedQueryExecutor.execute_with_streaming
    rw [if_pos hmw]
  · intro mw2 h2
    constructor
    · unfold ThreadedQueryExecutor.execute
      rw [if_neg (by omega)]
      rfl
    · unfold ThreadedQueryExecutor.execute_with_streaming
      rw [if_neg (by omega)]
      rfl

/-- C9 witness: the amended validation behaviour at worker count `0`. -/
theorem worker_count_validation_witness :
    ThreadedQueryExecutor.execute 0 connAffectedOk "q" [] []
      = .error "max_workers must be greater than 0" ∧
    ThreadedQueryExecutor.execute_with_streaming 0 connAffectedOk "q" [] [] sinkOk true
      = .error "max_workers must be greater than 0" ∧
    (∀ mw2 : Int, 0 < mw2 →
      ThreadedQueryExecutor.execute mw2 connAffectedOk "q" [] [] = .ok ([], []) ∧
      ThreadedQueryExecutor.execute_with_streaming mw2 connAffectedOk "q" [] [] sinkOk true
        = .ok ([], [])) :=
  worker_count_validation 0 connAffectedOk sinkOk true "q" [] [] (by decide)

/-- C4: under any completion order, if the connector fails for exactly one of
the N submitted combinations, the run still yields exactly N results — one
with an error, N−1 without — and the error-free results are exactly (up to
completion order) the results each non-failing combination produces on its
own, so the failing task neither cancels nor corrupts any other task. -/
theorem single_failure_isolated (mw : Int) (conn : Connector) (query : String)
    (combos completion : List Combo)
    (results : List QueryResult) (tr : List ExecutionStats)
    (hperm : completion.Perm combos)
    (hrun : ThreadedQueryExecutor.execute mw conn query combos completion = .ok (results, tr))
    (hone : (combos.filter (fun c => (execute_single_query conn query c).error.isSome)).length
        = 1) :
    results.length = combos.length ∧
    (results.filter (fun r => r.error.isSome)).length = 1 ∧
    (results.filter (fun r => r.error.isNone)).length = combos.length - 1 ∧
    (results.filter (fun r => r.error.isNone)).Perm
      ((combos.filter (fun c => (execute_single_query conn query c).error.isNone)).map
        (fun c => execute_single_query conn query c)) := by
  unfold ThreadedQueryExecutor.execute at hrun
  by_cases hmw : mw ≤ 0
  · rw [if_pos hmw] at hrun
    exact absurd hrun (by simp)
  · rw [if_neg hmw] at hrun
    simp only [Except.ok.injEq, Prod.mk.injEq] at hrun
    obtain ⟨hres, htr⟩ := hrun
    subst hres
    have hlen : (completion.map (fun params => execute_single_query conn query params)).length
        = combos.length := by
      rw [List.length_map, hperm.length_eq]
    have hsome : ((completion.map (fun params => execute_single_query conn query params)).filter
        (fun r => r.error.isSome)).length = 1 := by
      rw [List.filter_map, List.length_map]
      have hp := (hperm.filter
        ((fun r : QueryResult => r.error.isSome) ∘ fun c => execute_single_query conn query c)).length_eq
      rw [hp]
      simpa [Function.comp_def] using hone
    refine ⟨hlen, hsome, ?_, ?_⟩
    · rw [filter_isNone_length, hsome, hlen]
    · rw [List.filter_map]
      have hp := hperm.filter
        ((fun r : QueryResult => r.error.isNone) ∘ fun c => execute_single_query conn query c)
      have := hp.map (fun c => execute_single_query conn query c)
      simpa [Function.comp_def] using this

/-- C4 witness: the isolation property evaluated on two combinations of which
exactly one makes the connector raise. -/
theorem single_failure_isolated_witness :
    c4Results.length = c4Combos.length ∧
    (c4Results.filter (fun r => r.error.isSome)).length = 1 ∧
    (c4Results.filter (fun r => r.error.isNone)).length = c4Combos.length - 1 ∧
    (c4Results.filter (fun r => r.error.isNone)).Perm
      ((c4Combos.filter (fun c => (execute_single_query connFailOn1 ":k" c).error.isNone)).map
        (fun c => execute_single_query connFailOn1 ":k" c)) :=
  single_failure_isolated 4 connFailOn1 ":k" c4Combos c4Completion c4Results c4Trace
    (by decide) rfl
    (by simp [c4Combos, execute_single_query, substitute_params, scanSub, connFailOn1,
      dictGet, isIdentStart, isIdentCont, List.filter])

/-- C7 (counterexample): when the statement's rowset already contains a
column named `_param_a` and the combination binds `a`, tagging overwrites
the existing column in place (pandas `df[col] = value`), so the frame
forwarded to the sink gains no extra column — refuting the claim's
"tagged ... as extra columns" at this input; the overwritten frame is still
streamed and its row count reported. -/
theorem streaming_tag_overwrites_existing_column :
    addParamColumns dfCollide [("a", Value.int 1)]
      = { cols := ["_param_a"], rows := [[some (Value.int 1)]] } ∧
    (addParamColumns dfCollide [("a", Value.int 1)]).cols.length = dfCollide.cols.length ∧
    (execute_and_stream connCollide "q" [("a", Value.int 1)] sinkOk true).rows_inserted = 1 ∧
    (execute_and_stream connCollide "q" [("a", Value.int 1)] sinkOk true).error = none := by
  refine ⟨by decide, by decide, ?_, ?_⟩ <;>
    simp [execute_and_stream, substitute_params, scanSub, connCollide, sinkOk, dfCollide,
      addParamColumns, setColumn, stream_insert_df, isIdentStart, isIdentCont]

/-- C7 (amended): in streaming mode, for either value of `tagWithParams`, a
statement that returns rows has its frame forwarded to the COPY sink and not
retained — `data = none`, `error = none`, and `rows_inserted` is exactly the
count `stream_insert_df` reports for the forwarded frame; when
`tagWithParams` is set, each parameter is written into column
`_param_<name>`, appended as an extra column holding that parameter's value
in every row whenever the tag names are fresh (pandas overwrites an existing
column in place otherwise, see the counterexample); and for every streaming
run the final stats' `rows_inserted` is the sum of the successful results'
`rows_inserted`. -/
theorem streaming_rows_forwarded (conn : Connector) (sink : Sink) (query : String)
    (params : Combo) (df : DataFrame) (apc : Bool)
    (hrows : conn.exec (substitute_params query params).1 (substitute_params query params).2
        = .ok (.rows df)) :
    (execute_and_stream conn query params sink apc).data = none ∧
    (execute_and_stream conn query params sink apc).error = none ∧
    (execute_and_stream conn query params sink apc).rows_inserted
      = stream_insert_df sink (if apc then addParamColumns df params else df) ∧
    ((params.map (fun kv => "_param_" ++ kv.1)).Nodup →
      (∀ kv ∈ params, ("_param_" ++ kv.1) ∉ df.cols) →
      addParamColumns df params
        = { cols := df.cols ++ params.map (fun kv => "_param_" ++ kv.1),
            rows := df.rows.map (fun r => r ++ params.map (fun kv => some kv.2)) }) ∧
    (∀ (mw : Int) (combos completion : List Combo) (results : List QueryResult)
        (tr : List ExecutionStats),
      ThreadedQueryExecutor.execute_with_streaming mw conn query combos completion sink apc
          = .ok (results, tr) →
      (tr.getLastD (initStats combos.length)).rows_inserted
        = ((results.filter (fun r => !errTruthy r.error)).map (fun r => r.rows_inserted)).sum) := by
  have hx : execute_and_stream conn query params sink apc
      = { params := params, data := none, error := none,
          row_count := ((if apc then addParamColumns df params else df)).rows.length,
          rows_inserted := stream_insert_df sink (if apc then addParamColumns df params else df) } := by
    unfold execute_and_stream
    rw [hrows]
  refine ⟨by rw [hx], by rw [hx], by rw [hx], addParamColumns_append params df, ?_⟩
  intro mw combos completion results tr hrun
  unfold ThreadedQueryExecutor.execute_with_streaming at hrun
  by_cases hmw : mw ≤ 0
  · rw [if_pos hmw] at hrun
    exact absurd hrun (by simp)
  · rw [if_neg hmw] at hrun
    simp only [Except.ok.injEq, Prod.mk.injEq] at hrun
    obtain ⟨hres, htr⟩ := hrun
    subst hres
    subst htr
    have h := statsTrace_streaming_rowsInserted (initStats combos.length)
      (completion.map (fun params => execute_and_stream conn query params sink apc))
    have h0 : (initStats combos.length).rows_inserted = 0 := rfl
    rw [h0, Nat.zero_add] at h
    exact h

/-- C7 witness: one untagged streamed task returning `df1` through an
accepting sink. -/
theorem streaming_rows_forwarded_witness :
    (execute_and_stream connRows1 "q" [("b", Value.int 2)] sinkOk false).data = none ∧
    (execute_and_stream connRows1 "q" [("b", Value.int 2)] sinkOk false).error = none ∧
    (execute_and_stream connRows1 "q" [("b", Value.int 2)] sinkOk false).rows_inserted
      = stream_insert_df sinkOk
          (if false then addParamColumns df1 [("b", Value.int 2)] else df1) ∧
    ((([("b", Value.int 2)] : Combo).map (fun kv => "_param_" ++ kv.1)).Nodup →
      (∀ kv ∈ ([("b", Value.int 2)] : Combo), ("_param_" ++ kv.1) ∉ df1.cols) →
      addParamColumns df1 [("b", Value.int 2)]
        = { cols := df1.cols ++ ([("b", Value.int 2)] : Combo).map (fun kv => "_param_" ++ kv.1),
            rows := df1.rows.map
              (fun r => r ++ ([("b", Value.int 2)] : Combo).map (fun kv => some kv.2)) }) ∧
    (∀ (mw : Int) (combos completion : List Combo) (results : List QueryResult)
        (tr : List ExecutionStats),
      ThreadedQueryExecutor.execute_with_streaming mw connRows1 "q" combos completion sinkOk false
          = .ok (results, tr) →
      (tr.getLastD (initStats combos.length)).rows_inserted
        = ((results.filter (fun r => !errTruthy r.error)).map (fun r => r.rows_inserted)).sum) :=
  streaming_rows_forwarded connRows1 sinkOk "q" [("b", Value.int 2)] df1 false rfl

theorem daysInMonth_pos (y m : Nat) : 1 ≤ daysInMonth y m := by
  unfold daysInMonth
  split
  · split <;> omega
  · split <;> omega

theorem daysBeforeMonth_succ (y m : Nat) (h1 : 1 ≤ m) :
    daysBeforeMonth y (m + 1) = daysBeforeMonth y m + daysInMonth y m := by
  unfold daysBeforeMonth
  have h2 : m + 1 - 1 = (m - 1) + 1 := by omega
  rw [h2, List.range_succ, List.map_append, List.sum_append]
  have h3 : m - 1 + 1 = m := by omega
  simp [h3]

theorem daysBeforeMonth_12 (y : Nat) :
    daysBeforeMonth y 12 = 334 + (if isLeap y then 1 else 0) := by
  have hr : List.range 11 = [0, 1, 2, 3, 4, 5, 6, 7, 8, 9, 10] := rfl
  unfold daysBeforeMonth
  rw [show (12 : Nat) - 1 = 11 from rfl, hr]
  by_cases hl : isLeap y <;> simp [daysInMonth, hl]

set_option maxHeartbeats 1000000 in
theorem daysBeforeYear_succ (y : Nat) (h : 1 ≤ y) :
    daysBeforeYear (y + 1) = daysBeforeYear y + 365 + (if isLeap y then 1 else 0) := by
  unfold daysBeforeYear
  rcases hb : isLeap y with _ | _ <;>
    unfold isLeap at hb <;> simp at hb <;> simp <;> omega

theorem nextDay_valid (d : Date) (hv : d.Valid) : (nextDay d).Valid := by
  obtain ⟨hy, hm1, hm2, hd1, hd2⟩ := hv
  unfold nextDay
  split
  · rename_i hlt
    exact ⟨hy, hm1, hm2, show 1 ≤ d.day + 1 by omega, hlt⟩
  · split
    · rename_i hge hm
      exact ⟨hy, show 1 ≤ d.month + 1 by omega, show d.month + 1 ≤ 12 by omega,
        le_refl 1, daysInMonth_pos _ _⟩
    · exact ⟨show 1 ≤ d.year + 1 by omega, le_refl 1, show (1 : Nat) ≤ 12 by omega,
        le_refl 1, daysInMonth_pos _ _⟩

theorem nextDay_toOrdinal (d : Date) (hv : d.Valid) :
    (nextDay d).toOrdinal = d.toOrdinal + 1 := by
  obtain ⟨hy, hm1, hm2, hd1, hd2⟩ := hv
  unfold nextDay
  split
  · simp [Date.toOrdinal]
    omega
  · rename_i hlt
    split
    · rename_i hm
      simp only [Date.toOrdinal]
      rw [daysBeforeMonth_succ d.year d.month hm1]
      have hdim : d.day = daysInMonth d.year d.month := by omega
      omega
    · rename_i hm
      have hm12 : d.month = 12 := by omega
      have h31 : daysInMonth d.year 12 = 31 := by simp [daysInMonth]
      have hd31 : d.day = 31 := by
        rw [hm12] at hd2 hlt
        rw [h31] at hd2 hlt
        omega
      simp only [Date.toOrdinal]
      rw [daysBeforeYear_succ d.year hy, hm12, hd31, daysBeforeMonth_12]
      have h0 : daysBeforeMonth (d.year + 1) 1 = 0 := by
        simp [daysBeforeMonth]
      rw [h0]
      by_cases hl : isLeap d.year <;> simp [hl]

theorem rangeAux_ordinals (e : Date) (fuel : Nat) :
    ∀ s : Date, s.Valid → fuel = e.toOrdinal + 1 - s.toOrdinal →
      (rangeAux e fuel s).map Date.toOrdinal = List.range' s.toOrdinal fuel := by
  induction fuel with
  | zero =>
    intro s hv hf
    simp [rangeAux]
  | succ f ih =>
    intro s hv hf
    rw [rangeAux]
    have hle : s.toOrdinal ≤ e.toOrdinal := by omega
    rw [if_pos hle, List.range'_succ]
    simp only [List.map_cons, List.cons.injEq, true_and]
    have hord := nextDay_toOrdinal s hv
    rw [ih (nextDay s) (nextDay_valid s hv) (by omega), hord]

theorem strptimeDate_valid (fmt s : String) (d : Date)
    (h : strptimeDate fmt s = some d) : d.Valid := by
  unfold strptimeDate at h
  split at h
  · exact absurd h (by simp)
  · split at h
    · rename_i hcond
      obtain ⟨h1, h2, h3, h4, h5, h6⟩ := hcond
      injection h with h
      subst h
      exact ⟨h1, h3, h4, h5, h6⟩
    · exact absurd h (by simp)

/-- On successfully parsed bounds, `generate_date_range` produces the dates
whose ordinals are exactly the consecutive integers from the start's ordinal
to the end's ordinal — every calendar day from start to end inclusive. -/
theorem generate_date_range_ordinals (fmt startStr endStr : String) (s e : Date)
    (hs : strptimeDate fmt startStr = some s) (he : strptimeDate fmt endStr = some e) :
    (generate_date_range startStr endStr fmt).map Date.toOrdinal
      = List.range' s.toOrdinal (e.toOrdinal + 1 - s.toOrdinal) := by
  unfold generate_date_range
  rw [hs, he]
  exact rangeAux_ordinals e _ s (strptimeDate_valid fmt startStr s hs) rfl

theorem generate_date_range_parse_failure (fmt startStr endStr : String)
    (h : strptimeDate fmt startStr = none ∨ strptimeDate fmt endStr = none) :
    generate_date_range startStr endStr fmt = [] := by
  unfold generate_date_range
  rcases h with h | h
  · rw [h]
  · rcases hs : strptimeDate fmt startStr with _ | s
    · rfl
    · rw [h]

theorem intRange_mem (s e z : Int) : z ∈ intRange s e ↔ s ≤ z ∧ z ≤ e := by
  unfold intRange
  simp only [List.mem_map, List.mem_range]
  constructor
  · rintro ⟨i, hi, rfl⟩
    omega
  · rintro ⟨h1, h2⟩
    exact ⟨(z - s).toNat, by omega, by omega⟩

/-- C6 (counterexample): for a number-typed parameter whose bounds fail to
parse as integers, `set_from_range` leaves the previous value set untouched
(`except ValueError: pass`), so the resulting value set is not empty as the
claim demands. -/
theorem set_from_range_number_parse_failure_not_empty :
    (set_from_range { name := "n", param_type := "number", values := [Value.int 5] }
        "a" "b").values = [Value.int 5] ∧
    (set_from_range { name := "n", param_type := "number", values := [Value.int 5] }
        "a" "b").values ≠ [] := by
  constructor
  · decide
  · decide

/-- C6 (amended): for a date-typed parameter `set_from_range` sets the value
set to every calendar day from start to end inclusive under the declared
format (the ordinals of the generated dates are exactly the consecutive
integers from the start's ordinal to the end's), and to the empty set when
either bound fails to parse; for a number-typed parameter it sets every
integer from start to end inclusive when both bounds parse as `int`, but on a
parse failure it leaves the parameter unchanged (not emptied); for any other
type it is a no-op leaving the parameter unchanged.  No exception escapes in
any case: the operation is a total function. -/
theorem set_from_range_spec (p : Parameter) (startStr endStr : String) :
    (p.param_type = "date" →
      (set_from_range p startStr endStr).values
        = (generate_date_range startStr endStr p.date_format).map Value.date ∧
      (∀ s e, strptimeDate p.date_format startStr = some s →
          strptimeDate p.date_format endStr = some e →
          (generate_date_range startStr endStr p.date_format).map Date.toOrdinal
            = List.range' s.toOrdinal (e.toOrdinal + 1 - s.toOrdinal)) ∧
      ((strptimeDate p.date_format startStr = none ∨
          strptimeDate p.date_format endStr = none) →
          (set_from_range p startStr endStr).values = [])) ∧
    (p.param_type = "number" →
      (∀ sN eN, pyInt startStr = some sN → pyInt endStr = some eN →
          (set_from_range p startStr endStr).values = (intRange sN eN).map Value.int ∧
          (∀ z : Int, z ∈ intRange sN eN ↔ sN ≤ z ∧ z ≤ eN)) ∧
      ((pyInt startStr = none ∨ pyInt endStr = none) →
          set_from_range p startStr endStr = p)) ∧
    (p.param_type ≠ "date" → p.param_type ≠ "number" →
      set_from_range p startStr endStr = p) := by
  refine ⟨?_, ?_, ?_⟩
  · intro htype
    refine ⟨?_, ?_, ?_⟩
    · unfold set_from_range
      rw [if_pos htype]
    · intro s e hs he
      exact generate_date_range_ordinals p.date_format startStr endStr s e hs he
    · intro hfail
      unfold set_from_range
      rw [if_pos htype]
      simp only
      rw [generate_date_range_parse_failure p.date_format startStr endStr hfail]
      rfl
  · intro htype
    have hnd : ¬ p.param_type = "date" := by rw [htype]; decide
    constructor
    · intro sN eN hsN heN
      constructor
      · unfold set_from_range
        rw [if_neg hnd, if_pos htype, hsN, heN]
      · intro z
        exact intRange_mem sN eN z
    · intro hfail
      unfold set_from_range
      rw [if_neg hnd, if_pos htype]
      rcases hfail with hfail | hfail
      · rw [hfail]
      · rcases hs : pyInt startStr with _ | sN
        · rfl
        · rw [hfail]
  · intro hnd hnn
    unfold set_from_range
    rw [if_neg hnd, if_neg hnn]

/-- C6 witness: the amended behaviour instantiated at a date-typed parameter
and the bounds 2024-01-01 .. 2024-01-03. -/
theorem set_from_range_spec_witness :
    (dateParam.param_type = "date" →
      (set_from_range dateParam "2024-01-01" "2024-01-03").values
        = (generate_date_range "2024-01-01" "2024-01-03" dateParam.date_format).map Value.date ∧
      (∀ s e, strptimeDate dateParam.date_format "2024-01-01" = some s →
          strptimeDate dateParam.date_format "2024-01-03" = some e →
          (generate_date_range "2024-01-01" "2024-01-03" dateParam.date_format).map Date.toOrdinal
            = List.range' s.toOrdinal (e.toOrdinal + 1 - s.toOrdinal)) ∧
      ((strptimeDate dateParam.date_format "2024-01-01" = none ∨
          strptimeDate dateParam.date_format "2024-01-03" = none) →
          (set_from_range dateParam "2024-01-01" "2024-01-03").values = [])) ∧
    (dateParam.param_type = "number" →
      (∀ sN eN, pyInt "2024-01-01" = some sN → pyInt "2024-01-03" = some eN →
          (set_from_range dateParam "2024-01-01" "2024-01-03").values
            = (intRange sN eN).map Value.int ∧
          (∀ z : Int, z ∈ intRange sN eN ↔ sN ≤ z ∧ z ≤ eN)) ∧
      ((pyInt "2024-01-01" = none ∨ pyInt "2024-01-03" = none) →
          set_from_range dateParam "2024-01-01" "2024-01-03" = dateParam)) ∧
    (dateParam.param_type ≠ "date" → dateParam.param_type ≠ "number" →
      set_from_range dateParam "2024-01-01" "2024-01-03" = dateParam) :=
  set_from_range_spec dateParam "2024-01-01" "2024-01-03"

end DSK
